import Mathlib

/-!
Verification of the embedded document store of the `warehub` repository
(`src/warehub/database.py`, record types from `src/warehub/model.py`).

The store keeps a process-wide value `Database._data`, loaded from a JSON
backing file.  We shallowly embed the Python value universe that the store
manipulates as the inductive type `Val`: JSON scalars, `datetime` objects
(modelled as integer ticks), string-keyed `dict`s, record instances
(dataclass subclasses of `Table`, carrying a class name, the ordered
dataclass fields and the `_id` attribute), and values for which no codec is
registered (such as a Python `set`).  Fallible operations return
`Except PyErr`, where `PyErr` enumerates the exception classes the embedded
code can raise.  `datetime.isoformat` / `datetime.fromisoformat` are
modelled by the injective decimal rendering `natKey` and its parser
`parseNatKey`, which also model Python `str(i)` / `int(s)` on the
non-negative integers used as table keys.
-/

namespace Warehub

/-- Python exception values that the embedded fragment can raise.
`ioError` carries the `errno` and `strerror` attributes of an `OSError`;
the other exception classes have no `errno` attribute. -/
inductive PyErr where
  | ioError (errno : Option Int) (strerror : String)
  | typeError (msg : String)
  | valueError (msg : String)
  | attributeError (msg : String)
  | keyError (key : String)
  deriving DecidableEq, Repr

/-- The Python values handled by the store: JSON scalars, `datetime`
objects (integer ticks), string-keyed `dict`s in insertion order, record
instances (`Table` dataclass subclasses: class name, ordered dataclass
fields, and the non-field `_id` attribute), and `vNoCodec`, a stand-in for
a value with no registered codec (for example a Python `set`). -/
inductive Val where
  | vNone
  | vBool (b : Bool)
  | vInt (n : Int)
  | vStr (s : String)
  | vDt (t : Nat)
  | vDict (entries : List (String × Val))
  | vRec (cls : String) (fields : List (String × Val)) (idv : Int)
  | vNoCodec (tag : String)

/-- The JSON value trees that `json.dumps` writes and `json.loads` parses
(arrays are outside the modelled fragment; the store never produces one). -/
inductive Json where
  | jNull
  | jBool (b : Bool)
  | jInt (n : Int)
  | jStr (s : String)
  | jObj (entries : List (String × Json))

/-- First value bound to `k` in a Python dict rendered as an ordered
association list. -/
def dictLookup {α : Type} (k : String) : List (String × α) → Option α
  | [] => none
  | (k', v) :: rest => if k' = k then some v else dictLookup k rest

/-- Membership test `k in d` on a Python dict. -/
def dictMem {α : Type} (k : String) (es : List (String × α)) : Bool :=
  (dictLookup k es).isSome

/-- Python dict assignment `d[k] = v`: replace the first binding of `k`,
keeping its position, otherwise append the new binding (insertion order). -/
def dictSet {α : Type} (k : String) (v : α) : List (String × α) → List (String × α)
  | [] => [(k, v)]
  | (k', v') :: rest => if k' = k then (k, v) :: rest else (k', v') :: dictSet k v rest

/-- The character used for decimal digit `d`, as in Python `str(i)`. -/
def digitAsChar (d : Nat) : Char := Char.ofNat (48 + d)

/-- Big-endian decimal digit characters of `n`; the first argument is
recursion fuel, sufficient whenever `n ≤ fuel`. -/
def natKeyAux : Nat → Nat → List Char
  | 0, _ => []
  | fuel + 1, n => if n = 0 then [] else natKeyAux fuel (n / 10) ++ [digitAsChar (n % 10)]

/-- Python `str(n)` for a natural number `n`, also used as the model of
`datetime.isoformat` (timestamps are integer ticks, so any injective
rendering is faithful). -/
def natKey (n : Nat) : String := if n = 0 then "0" else (natKeyAux (n + 1) n).asString

/-- Is `c` a decimal digit character. -/
def isDigitChar (c : Char) : Bool := 48 ≤ c.toNat && c.toNat ≤ 57

/-- Python `int(s)` restricted to non-negative decimals (the only strings
the store itself uses as table keys), also the model of
`datetime.fromisoformat`. -/
def parseNatKey (s : String) : Option Nat :=
  if s.data ≠ [] && s.data.all isDigitChar then
    some (s.data.foldl (fun a c => a * 10 + (c.toNat - 48)) 0)
  else none

/-- Python `str(i)` on an arbitrary integer. -/
def intKey (i : Int) : String :=
  if i < 0 then "-" ++ natKey (-i).toNat else natKey i.toNat

/-- Python `str.lower()` (ASCII class names). -/
def pyLower (s : String) : String := String.mk (s.data.map Char.toLower)

/-! ### Python equality on values

`a == b` dispatches to the `__eq__` of the concrete class.  For record
types (`@dataclass` subclasses of `Table` such as `Project`), the
decorator adds a generated `__eq__` to each concrete class; that generated
method shadows the hand-written `Table.__eq__` (`database.py` lines
173-182), which therefore never runs for any record type of `model.py`.
The generated method compares the tuple of declared dataclass fields and
requires the classes to be identical; the `_id` attribute is not a
dataclass field and does not participate.  Dicts are compared here in
insertion order (the modelled runs never compare reordered dicts). -/

mutual

/-- Python `==` between two values (see the section comment: for records
this is the dataclass-generated field-tuple equality). -/
def pyEq : Val → Val → Bool
  | .vNone, .vNone => true
  | .vBool a, .vBool b => a == b
  | .vInt a, .vInt b => a == b
  | .vStr a, .vStr b => a == b
  | .vDt a, .vDt b => a == b
  | .vDict a, .vDict b => pyEqFields a b
  | .vRec c1 f1 _, .vRec c2 f2 _ => c1 == c2 && pyEqFields f1 f2
  | .vNoCodec a, .vNoCodec b => a == b
  | _, _ => false

/-- Pairwise Python `==` over ordered field lists. -/
def pyEqFields : List (String × Val) → List (String × Val) → Bool
  | [], [] => true
  | (k1, v1) :: r1, (k2, v2) :: r2 => k1 == k2 && pyEq v1 v2 && pyEqFields r1 r2
  | _, _ => false

end

/-- `getattr(e, name)`: reading a field of a record instance; any other
receiver (dict, scalar) has no such attribute and raises
`AttributeError`. -/
def getattrVal (e : Val) (name : String) : Except PyErr Val :=
  match e with
  | .vRec _ fs _ =>
    match dictLookup name fs with
    | some v => .ok v
    | none => .error (.attributeError name)
  | _ => .error (.attributeError name)

/-- `e._id = i`: attribute assignment, raising `AttributeError` unless the
receiver is a record instance (in CPython, `setattr` on a dict or a scalar
raises). -/
def setIdAttr (e : Val) (i : Int) : Except PyErr Val :=
  match e with
  | .vRec c fs _ => .ok (.vRec c fs i)
  | _ => .error (.attributeError "_id")

/-! ### Predicate algebra (`Comparison`, `TableField.__eq__`)

A `Comparison` wraps a one-argument boolean function evaluated against
each candidate record during a scan; evaluation can raise.  The literal
handed to `TableField.__eq__` is classified by the `Lit` type below: the
source calls `re.compile(other)` at predicate-construction time, chooses
the regex branch when compilation succeeds, and falls back to the exact
equality branch on `re.error` (malformed pattern) or `TypeError`
(non-string literal).  The modelled regex fragment is the
metacharacter-free patterns, for which `re.search` is exactly substring
containment; `Lit.badPat` stands for a string literal that `re.compile`
rejects. -/

/-- The evaluation function stored in a `Comparison` object. -/
abbrev Comparison := Val → Except PyErr Bool

/-- The literal handed to `TableField.__eq__`, classified by how
`re.compile` treats it: `pat` compiles (metacharacter-free fragment),
`badPat` raises `re.error`, `nonStr` raises `TypeError`. -/
inductive Lit where
  | pat (s : String)
  | badPat (s : String)
  | nonStr (v : Val)

/-- The Python value of the literal itself. -/
def litValue : Lit → Val
  | .pat s => .vStr s
  | .badPat s => .vStr s
  | .nonStr v => v

/-- Does `p` occur as a contiguous run inside `text`. -/
def searchChars (p : List Char) : List Char → Bool
  | [] => List.isPrefixOf p []
  | c :: rest => List.isPrefixOf p (c :: rest) || searchChars p rest

/-- `pattern.search(text) is not None` for a metacharacter-free pattern:
substring containment. -/
def reSearch (p : String) (text : String) : Bool := searchChars p.data text.data

/-- `TableField.__eq__` (database.py lines 133-140): if `re.compile(other)`
succeeds, the comparison is `pattern.search(getattr(e, name)) is not None`
— note that the `try` block only guards the compilation, so a search
applied to a non-string field value raises `TypeError` at evaluation time;
otherwise (`re.error` or `TypeError` from `re.compile`) the comparison is
exact equality `getattr(e, name) == other`. -/
def tableFieldEq (name : String) (lit : Lit) : Comparison :=
  match lit with
  | .pat p => fun e => do
    let v ← getattrVal e name
    match v with
    | .vStr s => .ok (reSearch p s)
    | _ => .error (.typeError "expected string or bytes-like object")
  | _ => fun e => do
    let v ← getattrVal e name
    .ok (pyEq v (litValue lit))

/-! ### The scan (`Database._get`, `Database.get`, `Database.pop`) -/

/-- The public `where` argument: `ComparisonType = Union[Comparison, bool]`,
with `None` as default. -/
inductive WhereArg where
  | noneW
  | boolW (b : Bool)
  | cmpW (c : Comparison)

/-- `where is None or (isinstance(where, bool) and where)`. -/
def preCheck : WhereArg → Bool
  | .noneW => true
  | .boolW b => b
  | .cmpW _ => false

/-- `where.compare(table_entry)`: neither `None` nor a `bool` has a
`compare` attribute, so both raise `AttributeError`; a `Comparison` runs
its stored function. -/
def whereCompare : WhereArg → Val → Except PyErr Bool
  | .noneW, _ => .error (.attributeError "compare")
  | .boolW _, _ => .error (.attributeError "compare")
  | .cmpW c, e => c e

/-- The entry loop of `Database._get`: keep every entry when the pre-check
holds, otherwise consult `where.compare` per entry, propagating whatever
it raises. -/
def scanTable (w : WhereArg) : List (String × Val) → Except PyErr (List (String × Val))
  | [] => .ok []
  | (k, e) :: rest =>
    if preCheck w then do
      let r ← scanTable w rest
      .ok ((k, e) :: r)
    else do
      let keep ← whereCompare w e
      let r ← scanTable w rest
      .ok (if keep then (k, e) :: r else r)

/-- `Database._get` on loaded data: resolve the table by the lower-cased
type name (absent table gives the empty list), then scan it.  A table
value that is not a dict has no `.items()` (`AttributeError`); data that
is not a dict does not support `in` (`TypeError`). -/
def dbGetRaw (data : Val) (clsName : String) (w : WhereArg) :
    Except PyErr (List (String × Val)) :=
  match data with
  | .vDict es =>
    match dictLookup (pyLower clsName) es with
    | none => .ok []
    | some (.vDict tbl) => scanTable w tbl
    | some _ => .error (.attributeError "items")
  | _ => .error (.typeError "argument of type is not a container")

/-- `entry._id = int(id)` for one scanned entry: parse the storage key
(`ValueError` on a non-decimal key), then assign the `_id` attribute
through the stored reference. -/
def stampEntry (p : String × Val) : Except PyErr Val :=
  match parseNatKey p.1 with
  | some n => setIdAttr p.2 (Int.ofNat n)
  | none => .error (.valueError p.1)

/-- `Database.get` on loaded data, value level: the scanned entries with
their `_id` stamped from the storage key.  (The returned objects are the
stored objects themselves; the aliasing consequences are modelled
separately by the heap model below.) -/
def dbGet (data : Val) (clsName : String) (w : WhereArg) : Except PyErr (List Val) := do
  let entries ← dbGetRaw data clsName w
  entries.mapM stampEntry

/-- `SomeClass(**x)`: keyword-argument unpacking requires a mapping; a
record instance (or any non-dict) raises `TypeError`. -/
def starKwargs : Val → Except PyErr (List (String × Val))
  | .vDict fs => .ok fs
  | _ => .error (.typeError "argument after ** must be a mapping")

/-- `Database.pop` on loaded data: the same scan as `get`, then
`table(**table_entry)` per entry — rebuilding a fresh record whose
`__post_init__` sets `_id = -1` when the stored entry is a plain mapping,
and raising `TypeError` when it is a record instance. -/
def dbPop (data : Val) (clsName : String) (w : WhereArg) : Except PyErr (List Val) := do
  let entries ← dbGetRaw data clsName w
  entries.mapM (fun p => do
    let fs ← starKwargs p.2
    .ok (.vRec clsName fs (-1)))

/-! ### Identity allocation and `Database.put` -/

/-- The allocation loop `id = 0; while str(id) in table_data: id += 1`,
with explicit fuel (the loop terminates on any finite table; fuel
`tbl.length + 1` is always sufficient, as proved below). -/
def allocLoop (tbl : List (String × Val)) : Nat → Nat → Nat
  | id, 0 => id
  | id, fuel + 1 => if dictMem (natKey id) tbl then allocLoop tbl (id + 1) fuel else id

/-- The identity `Database.put` assigns to a transient record given the
current table. -/
def allocId (tbl : List (String × Val)) : Nat := allocLoop tbl 0 (tbl.length + 1)

/-- The per-entry body of `Database.put`: read `entry.id` (property over
`_id`; `AttributeError` on a non-record), allocate first-fit when it is
negative, then `table_data[str(entry.id)] = entry`. -/
def putEntry (tblv : Val) (entry : Val) : Except PyErr Val :=
  match entry, tblv with
  | .vRec c fs i, .vDict tbl =>
    if i < 0 then
      let a := allocId tbl
      .ok (.vDict (dictSet (natKey a) (.vRec c fs (Int.ofNat a)) tbl))
    else
      .ok (.vDict (dictSet (intKey i) (.vRec c fs i) tbl))
  | .vRec _ _ _, _ => .error (.typeError "argument of type is not a container")
  | _, _ => .error (.attributeError "_id")

/-- The entry loop of `Database.put`. -/
def putLoop (tblv : Val) : List Val → Except PyErr Val
  | [] => .ok tblv
  | e :: rest => do
    let tblv' ← putLoop (← putEntry tblv e) rest
    .ok tblv'

/-- `Database.put` on loaded data: create the lower-cased table if absent,
run the entry loop, write the table back.  (The `none` branch is
unreachable: the table was just created.) -/
def dbPut (data : Val) (clsName : String) (entries : List Val) : Except PyErr Val :=
  match data with
  | .vDict es =>
    let tn := pyLower clsName
    let es1 := if dictMem tn es then es else dictSet tn (.vDict []) es
    match dictLookup tn es1 with
    | some tblv => do
      let tblv' ← putLoop tblv entries
      .ok (.vDict (dictSet tn tblv' es1))
    | none => .error (.keyError tn)
  | _ => .error (.typeError "argument of type is not a container")

/-! ### Serialization: `json.dumps(data, default=Database._encode)`

With the four built-in codecs registered (`datetime` and the `Table`
codecs, database.py lines 333-348), exactly one encoder matches each
encodable value: `datetime` values are wrapped as
`("__type__", "datetime") / ("value", iso string)` nodes, record instances
go through `TableEncoder`, whose payload is `asdict(obj)` — the dataclass
fields only, so the non-field `_id` attribute is dropped — wrapped with
the dynamic class name as discriminator.  Dicts are serialized natively.
A value with no matching encoder raises `TypeError`.  (Record values
nested inside fields do not occur in `model.py` and are outside the
modelled fragment.) -/

mutual

/-- Encode one Python value to a JSON tree, as `json.dumps` with
`default=Database._encode` does under the built-in codec registry. -/
def encodeVal : Val → Except PyErr Json
  | .vNone => .ok .jNull
  | .vBool b => .ok (.jBool b)
  | .vInt n => .ok (.jInt n)
  | .vStr s => .ok (.jStr s)
  | .vDt t => .ok (.jObj [("__type__", .jStr "datetime"), ("value", .jStr (natKey t))])
  | .vDict es => do
    let js ← encodeEntries es
    .ok (.jObj js)
  | .vRec c fs _ => do
    let js ← encodeEntries fs
    .ok (.jObj [("__type__", .jStr c), ("value", .jObj js)])
  | .vNoCodec tag =>
    .error (.typeError ("Object of type " ++ tag ++ " is not JSON serializable"))

/-- Encode the entries of a dict in order, propagating the first failure. -/
def encodeEntries : List (String × Val) → Except PyErr (List (String × Json))
  | [] => .ok []
  | (k, v) :: rest => do
    let j ← encodeVal v
    let r ← encodeEntries rest
    .ok ((k, j) :: r)

end

/-! ### Deserialization: `json.loads(text, object_hook=Database._decode)` -/

/-- The class names `TableDecoder.sub_types(Table)` finds by walking the
subclass hierarchy of `Table` with the record types of `model.py`
imported. -/
def knownTypes : List String := ["Table", "Project", "Release", "File", "FileName"]

/-- `datetime.fromisoformat(v)`: parses an ISO string back to a timestamp;
any non-string argument — in particular a `datetime` object — raises
`TypeError`. -/
def fromisoformatVal : Val → Except PyErr Nat
  | .vStr s =>
    match parseNatKey s with
    | some t => .ok t
    | none => .error (.valueError s)
  | _ => .error (.typeError "fromisoformat: argument must be str")

/-- `Database._decode` on one parsed JSON object whose entries have
already been decoded (the `object_hook` runs bottom-up): a node without a
`"__type__"` discriminator passes through unchanged; `"datetime"` nodes go
through `datetime.fromisoformat` (`TypeError` when the payload is not a
string); nodes naming a `Table` subclass are rebuilt via
`sub_types(Table)[name](**obj["value"])`, whose `__post_init__` sets
`_id = -1`; any other discriminator matches no decoder and raises
`TypeError`. -/
def decodeHook (es : List (String × Val)) : Except PyErr Val :=
  match dictLookup "__type__" es with
  | none => .ok (.vDict es)
  | some (.vStr t) =>
    if t = "datetime" then
      match dictLookup "value" es with
      | some v => do .ok (.vDt (← fromisoformatVal v))
      | none => .error (.keyError "value")
    else if knownTypes.contains t then
      match dictLookup "value" es with
      | some (.vDict fs) => .ok (.vRec t fs (-1))
      | some _ => .error (.typeError "argument after ** must be a mapping")
      | none => .error (.keyError "value")
    else .error (.typeError ("Object of type " ++ t ++ " is not JSON deserializable"))
  | some _ => .error (.typeError "is not JSON deserializable")

mutual

/-- Decode a JSON tree to the Python value `json.loads` with
`object_hook=Database._decode` produces. -/
def decodeJson : Json → Except PyErr Val
  | .jNull => .ok .vNone
  | .jBool b => .ok (.vBool b)
  | .jInt n => .ok (.vInt n)
  | .jStr s => .ok (.vStr s)
  | .jObj es => do
    let ds ← decodeEntries es
    decodeHook ds

/-- Decode the entries of a parsed JSON object in order. -/
def decodeEntries : List (String × Json) → Except PyErr (List (String × Val))
  | [] => .ok []
  | (k, j) :: rest => do
    let v ← decodeJson j
    let r ← decodeEntries rest
    .ok ((k, v) :: r)

end

/-! ### `rollback`, `last_commit`, `commit` -/

/-- The contents of the backing file: absent (`FileNotFoundError`), text
that is not JSON (`json.decoder.JSONDecodeError`), or a parsed JSON
document (the store itself always writes a JSON object). -/
inductive FileState where
  | absent
  | garbage
  | doc (entries : List (String × Json))

/-- `Database.rollback` (lines 248-253): load and decode the backing file;
on `FileNotFoundError` or `JSONDecodeError` substitute the fresh one-entry
document stamped with `datetime.now()`.  Decoder errors raised by the
`object_hook` are not caught and propagate. -/
def rollbackFn (fs : FileState) (now : Nat) : Except PyErr Val :=
  match fs with
  | .absent => .ok (.vDict [("last_commit", .vDt now)])
  | .garbage => .ok (.vDict [("last_commit", .vDt now)])
  | .doc es => decodeJson (.jObj es)

/-- `d[k]` subscription on a Python value. -/
def subscriptVal (data : Val) (k : String) : Except PyErr Val :=
  match data with
  | .vDict es =>
    match dictLookup k es with
    | some v => .ok v
    | none => .error (.keyError k)
  | _ => .error (.typeError "is not subscriptable")

/-- The process-wide store state: `Database._data` (None before the first
load) and the backing file. -/
structure DBState where
  data : Option Val
  file : FileState

/-- The lazy-load step `if cls._data is None: cls.rollback()` shared by
the public operations. -/
def loadIfNone (st : DBState) (now : Nat) : Except PyErr Val :=
  match st.data with
  | some d => .ok d
  | none => rollbackFn st.file now

/-- `Database.last_commit` (lines 242-246): load if needed, then
`datetime.fromisoformat(cls._data["last_commit"])`. -/
def lastCommitFn (st : DBState) (now : Nat) : Except PyErr Nat := do
  let d ← loadIfNone st now
  let v ← subscriptVal d "last_commit"
  fromisoformatVal v

/-- Whether the backing-file write succeeds (`Path.write_text`). -/
inductive IoOutcome where
  | ioOk
  | ioFail (errno : Option Int) (strerror : String)

/-- The outcome of `Database.commit` towards its caller: a returned
boolean or a propagated exception. -/
inductive CommitRes where
  | returned (b : Bool)
  | raised (e : PyErr)

/-- Does the exception object have an `errno` attribute (only `OSError`
and its aliases such as `IOError` do). -/
def hasErrno : PyErr → Bool
  | .ioError _ _ => true
  | _ => false

/-- The rolled-back timestamp: `datetime.now() if previous_commit is None
else previous_commit`. -/
def restoreVal (previous : Option Val) (tRestore : Nat) : Val :=
  match previous with
  | none => .vDt tRestore
  | some v => v

/-- The `except` clause of `Database.commit`: restore the timestamp, then
`print(f"I/O error({e.errno}): {e.strerror}")` — the attribute access
`e.errno` raises `AttributeError` when the caught exception is not an
`OSError`, so only I/O failures reach the `return False`. -/
def commitExceptClause (previous : Option Val) (tRestore : Nat)
    (es1 : List (String × Val)) (file : FileState) (e : PyErr) : CommitRes × DBState :=
  let es2 := dictSet "last_commit" (restoreVal previous tRestore) es1
  if hasErrno e then
    (.returned false, { data := some (.vDict es2), file := file })
  else
    (.raised (.attributeError "errno"), { data := some (.vDict es2), file := file })

/-- `Database.commit` (lines 255-272): lazy-load (errors there propagate —
the `try` has not begun), remember the previous timestamp, stamp
`datetime.now()`, serialize the whole document and write it; on failure
run the `except` clause above.  `tLoad`, `tStamp` and `tRestore` are the
values of the successive `datetime.now()` calls. -/
def commitFn (st : DBState) (tLoad tStamp tRestore : Nat) (ioRes : IoOutcome) :
    CommitRes × DBState :=
  match loadIfNone st tLoad with
  | .error e => (.raised e, st)
  | .ok d =>
    match d with
    | .vDict es =>
      let previous := dictLookup "last_commit" es
      let es1 := dictSet "last_commit" (.vDt tStamp) es
      match encodeEntries es1 with
      | .error e => commitExceptClause previous tRestore es1 st.file e
      | .ok js =>
        match ioRes with
        | .ioOk => (.returned true, { data := some (.vDict es1), file := .doc js })
        | .ioFail errno strerror =>
          commitExceptClause previous tRestore es1 st.file (.ioError errno strerror)
    | _ =>
      (.raised (.typeError "argument of type is not a container"),
        { data := some d, file := st.file })

/-! ### The codec registry in general (`Database._encode`, `Database._decode`)

The registry operations are modelled over an arbitrary list of registered
codecs to state the zero-match and multi-match behaviour of claims about
ambiguous registration. -/

/-- `obj.__class__.__name__`. -/
def clsNameOf : Val → String
  | .vNone => "NoneType"
  | .vBool _ => "bool"
  | .vInt _ => "int"
  | .vStr _ => "str"
  | .vDt _ => "datetime"
  | .vDict _ => "dict"
  | .vRec c _ _ => c
  | .vNoCodec tag => tag

/-- A registered encoder: its `check` predicate and its `encode`
function. -/
structure EncoderM where
  typeName : String
  check : Val → Bool
  encodeFn : Val → Json

/-- `Database._encode` (lines 216-226) over registry `encs`: collect every
encoder whose `check` matches.  On the multi-match branch the source
builds `TypeError(f"Multiple encoders found ...")` but never raises it, so
control falls through past the length-one test to the final
`raise TypeError(... is not JSON serializable)`; hence any count other
than exactly one raises the not-serializable error. -/
def dbEncodeWith (encs : List EncoderM) (obj : Val) : Except PyErr Json :=
  let found := encs.filter (fun e => e.check obj)
  match found with
  | [e] => .ok (e.encodeFn obj)
  | _ => .error (.typeError ("Object of type " ++ clsNameOf obj ++ " is not JSON serializable"))

/-- A registered decoder: its `check` predicate over the discriminator
node and its (fallible) `decode` function. -/
structure DecoderM where
  typeName : String
  check : List (String × Val) → Bool
  decodeFn : List (String × Val) → Except PyErr Val

/-- `Database._decode` (lines 228-240) over registry `decs`: a node
without `"__type__"` passes through unchanged; otherwise collect the
matching decoders — the multi-match `TypeError` is likewise constructed
but not raised, so any count other than one raises the
not-deserializable error. -/
def dbDecodeWith (decs : List DecoderM) (node : List (String × Val)) : Except PyErr Val :=
  match dictLookup "__type__" node with
  | none => .ok (.vDict node)
  | some _ =>
    let found := decs.filter (fun d => d.check node)
    match found with
    | [d] => d.decodeFn node
    | _ => .error (.typeError "is not JSON deserializable")

/-! ### The heap model of `Database.get` aliasing

`Database.get` appends the very objects stored in `cls._data` to its
result (after stamping their `_id` from the storage key); the caller and
the store then share those objects.  To state this, record objects live on
an explicit heap (`cells`, addressed by index) and the stored tables map
storage keys to addresses. -/

/-- The store with record objects on an explicit heap. -/
structure HeapStore where
  cells : List Val
  tables : List (String × List (String × Nat))

/-- Stamp `_id` through the reference at address `a` (a dangling address
is outside the reachable states of the model). -/
def stampCell (cells : List Val) (a : Nat) (i : Int) : Except PyErr (List Val) :=
  match cells.get? a with
  | some c => do
    let c' ← setIdAttr c i
    .ok (cells.set a c')
  | none => .error (.attributeError "_id")

/-- The entry loop of `Database.get` with the default `where=None`:
`entry._id = int(id)` through each stored reference, then append that
same reference to the results. -/
def heapGetLoop (cells : List Val) : List (String × Nat) → Except PyErr (List Val × List Nat)
  | [] => .ok (cells, [])
  | (k, a) :: rest =>
    match parseNatKey k with
    | none => .error (.valueError k)
    | some n => do
      let cells' ← stampCell cells a (Int.ofNat n)
      let (cells'', addrs) ← heapGetLoop cells' rest
      .ok (cells'', a :: addrs)

/-- `Database.get(type)` in the heap model: returns the updated store and
the addresses of the returned record objects. -/
def heapGet (s : HeapStore) (clsName : String) : Except PyErr (HeapStore × List Nat) :=
  match dictLookup (pyLower clsName) s.tables with
  | none => .ok (s, [])
  | some tbl => do
    let (cells', addrs) ← heapGetLoop s.cells tbl
    .ok ({ s with cells := cells' }, addrs)

/-- `record.field = x`: a caller-side field assignment through a reference
obtained from `get`. -/
def setFieldVal (v : Val) (name : String) (x : Val) : Val :=
  match v with
  | .vRec c fs i => .vRec c (dictSet name x fs) i
  | v => v

/-- Mutating the record object at address `a` through a held reference. -/
def heapMutate (s : HeapStore) (a : Nat) (name : String) (x : Val) : HeapStore :=
  match s.cells.get? a with
  | some c => { s with cells := s.cells.set a (setFieldVal c name x) }
  | none => s

/-! ### Well-formed documents and the identity-stripping round trip

The round-trip statements below quantify over the documents the store
itself builds: a dict whose `"last_commit"` entry holds a `datetime` and
whose other entries are tables — dicts mapping storage keys to record
instances of the known `Table` subclasses with scalar fields.  (Fields
holding containers are outside the modelled fragment; no key is the
reserved discriminator `"__type__"`, which the store never produces as a
table name, storage key or dataclass field name.) -/

/-- Is the value a JSON scalar or a `datetime` (the field values of the
record types in `model.py`, minus containers). -/
def isScalarVal : Val → Bool
  | .vNone => true
  | .vBool _ => true
  | .vInt _ => true
  | .vStr _ => true
  | .vDt _ => true
  | _ => false

/-- Well-formed dataclass field list: scalar values, no field named
`"__type__"`. -/
def wfFields (fs : List (String × Val)) : Bool :=
  fs.all (fun p => (p.1 != "__type__") && isScalarVal p.2)

/-- Well-formed table entry: a record instance of a known `Table` subclass
with well-formed fields. -/
def wfEntryV : Val → Bool
  | .vRec c f _ => knownTypes.contains c && (c != "datetime") && wfFields f
  | _ => false

/-- Well-formed table value: a dict of well-formed record entries whose
keys are not the discriminator. -/
def wfTableV : Val → Bool
  | .vDict tbl => tbl.all (fun p => (p.1 != "__type__") && wfEntryV p.2)
  | _ => false

/-- Well-formed document: every entry is either the `datetime`-valued
`"last_commit"` or a table, and no key is the discriminator. -/
def wfDoc (es : List (String × Val)) : Bool :=
  es.all (fun p => (p.1 != "__type__") &&
    (if p.1 = "last_commit" then (match p.2 with | .vDt _ => true | _ => false)
     else wfTableV p.2))

/-- Reset the in-memory identity of a record instance to `-1`, as decoding
does (`asdict` drops the non-field `_id`, and `__post_init__` re-creates
it as `-1`). -/
def stripId : Val → Val
  | .vRec c f _ => .vRec c f (-1)
  | v => v

/-- `stripId` over a table value. -/
def stripTableV : Val → Val
  | .vDict tbl => .vDict (tbl.map (fun p => (p.1, stripId p.2)))
  | v => v

/-- `stripId` over a whole document (the `"last_commit"` entry is not a
table and passes through). -/
def stripDoc (es : List (String × Val)) : List (String × Val) :=
  es.map (fun p => (p.1, if p.1 = "last_commit" then p.2 else stripTableV p.2))

/-! ## Helper lemmas -/

@[simp] theorem dictLookup_nil {α : Type} (k : String) : dictLookup k ([] : List (String × α)) = none := rfl

@[simp] theorem dictLookup_cons {α : Type} (k k' : String) (v : α) (rest : List (String × α)) :
    dictLookup k ((k', v) :: rest) = if k' = k then some v else dictLookup k rest := rfl

@[simp] theorem dictSet_nil {α : Type} (k : String) (v : α) : dictSet k v [] = [(k, v)] := rfl

@[simp] theorem dictSet_cons {α : Type} (k k' : String) (v v' : α) (rest : List (String × α)) :
    dictSet k v ((k', v') :: rest) =
      if k' = k then (k, v) :: rest else (k', v') :: dictSet k v rest := rfl

theorem dictLookup_dictSet {α : Type} (k : String) (v : α) (es : List (String × α)) :
    dictLookup k (dictSet k v es) = some v := by
  induction es with
  | nil => simp [dictLookup, dictSet]
  | cons p rest ih =>
    obtain ⟨k', v'⟩ := p
    by_cases h : k' = k <;> simp [dictLookup, dictSet, h, ih]

theorem dictLookup_dictSet_ne {α : Type} (k k' : String) (v : α) (es : List (String × α))
    (h : k' ≠ k) : dictLookup k' (dictSet k v es) = dictLookup k' es := by
  induction es with
  | nil => simp [dictLookup, dictSet, Ne.symm h]
  | cons p rest ih =>
    obtain ⟨k'', v''⟩ := p
    by_cases hk : k'' = k
    · subst hk
      simp [dictLookup, dictSet, Ne.symm h]
    · simp [dictLookup, dictSet, hk, ih]

theorem digitAsChar_toNat (d : Nat) (h : d < 10) : (digitAsChar d).toNat = 48 + d := by
  interval_cases d <;> decide

theorem digitAsChar_isDigit (d : Nat) (h : d < 10) : isDigitChar (digitAsChar d) = true := by
  interval_cases d <;> decide

theorem natKeyAux_all_digits (fuel n : Nat) :
    (natKeyAux fuel n).all isDigitChar = true := by
  induction fuel generalizing n with
  | zero => simp [natKeyAux]
  | succ fuel ih =>
    by_cases h : n = 0
    · simp [natKeyAux, h]
    · simp only [natKeyAux, if_neg h, List.all_append, ih, Bool.true_and, List.all_cons,
        List.all_nil, Bool.and_true]
      exact digitAsChar_isDigit _ (Nat.mod_lt _ (by norm_num))

theorem natKeyAux_foldl (fuel n a : Nat) (hfuel : n ≤ fuel) :
    (natKeyAux fuel n).foldl (fun a c => a * 10 + (c.toNat - 48)) a =
      a * 10 ^ (natKeyAux fuel n).length + n := by
  induction fuel generalizing n a with
  | zero =>
    have hn : n = 0 := Nat.le_zero.mp hfuel
    simp [natKeyAux, hn]
  | succ fuel ih =>
    by_cases h : n = 0
    · simp [natKeyAux, h]
    · have hdiv : n / 10 ≤ fuel := by
        have : n / 10 < n := Nat.div_lt_self (Nat.pos_of_ne_zero h) (by norm_num)
        omega
      simp only [natKeyAux, if_neg h, List.foldl_append, List.foldl_cons, List.foldl_nil,
        List.length_append, List.length_cons, List.length_nil, ih _ _ hdiv]
      rw [digitAsChar_toNat _ (Nat.mod_lt _ (by norm_num))]
      have hmod := Nat.div_add_mod n 10
      ring_nf
      omega

theorem natKeyAux_ne_nil (fuel n : Nat) (hn : n ≠ 0) (hfuel : 0 < fuel) :
    natKeyAux fuel n ≠ [] := by
  cases fuel with
  | zero => omega
  | succ fuel => simp [natKeyAux, hn]

/-- `int(str(n)) = n`: the decimal rendering and parser are mutually
inverse on the naturals. -/
theorem parseNatKey_natKey (n : Nat) : parseNatKey (natKey n) = some n := by
  by_cases h : n = 0
  · subst h; decide
  · have hne : natKeyAux (n + 1) n ≠ [] := natKeyAux_ne_nil _ _ h (by omega)
    have hall := natKeyAux_all_digits (n + 1) n
    have hfold := natKeyAux_foldl (n + 1) n 0 (by omega)
    simp only [natKey, if_neg h, parseNatKey, List.asString]
    simp only [hne, hall, ne_eq, not_false_iff, Bool.and_self, if_true, hfold,
      Nat.zero_mul, Nat.zero_add]
    simp [hne]

/-- `str` is injective on the naturals. -/
theorem natKey_injective : Function.Injective natKey := by
  intro a b hab
  have ha := parseNatKey_natKey a
  have hb := parseNatKey_natKey b
  rw [hab, hb] at ha
  exact (Option.some.injEq _ _).mp ha.symm

theorem scanTable_keepAll (w : WhereArg) (hw : preCheck w = true)
    (tbl : List (String × Val)) : scanTable w tbl = .ok tbl := by
  induction tbl with
  | nil => rfl
  | cons p rest ih =>
    obtain ⟨k, e⟩ := p
    simp only [scanTable, hw, if_true, ih]
    rfl

theorem scanTable_false_cons (k : String) (e : Val) (rest : List (String × Val)) :
    scanTable (.boolW false) ((k, e) :: rest) = .error (.attributeError "compare") := rfl

theorem dictMem_true_of_lookup {α : Type} (k : String) (es : List (String × α)) (v : α)
    (h : dictLookup k es = some v) : dictMem k es = true := by
  simp [dictMem, h]

theorem dictMem_iff_mem_keys {α : Type} (k : String) (es : List (String × α)) :
    dictMem k es = true ↔ k ∈ es.map Prod.fst := by
  induction es with
  | nil => simp [dictMem, dictLookup]
  | cons p rest ih =>
    obtain ⟨k', v⟩ := p
    by_cases h : k' = k
    · subst h; simp [dictMem, dictLookup]
    · simp only [dictMem, dictLookup, if_neg h, List.map_cons, List.mem_cons]
      rw [← dictMem]
      rw [ih]
      constructor
      · intro hm; exact Or.inr hm
      · intro hm
        rcases hm with hm | hm
        · exact absurd hm.symm h
        · exact hm

/-! ## C10 -/

/-- C10: the public `where` parameter of `get` and `pop` admits a plain
boolean (`ComparisonType = Union[Comparison, bool]`); the literal `True`
short-circuits to keep-all, but on every non-empty table the literal
`False` fails the keep-all pre-check and is then used as a predicate
object, so the scan raises `AttributeError` instead of returning the empty
sequence; only an absent or empty table yields the empty sequence. -/
theorem c10_where_false_raises_during_scan :
    (∀ (es : List (String × Val)) (cls k : String) (e : Val) (rest : List (String × Val)),
      dictLookup (pyLower cls) es = some (.vDict ((k, e) :: rest)) →
      dbGetRaw (.vDict es) cls (.boolW false) = .error (.attributeError "compare") ∧
      dbGet (.vDict es) cls (.boolW false) = .error (.attributeError "compare") ∧
      dbPop (.vDict es) cls (.boolW false) = .error (.attributeError "compare")) ∧
    (∀ (es : List (String × Val)) (cls : String),
      dictLookup (pyLower cls) es = none →
      dbGet (.vDict es) cls (.boolW false) = .ok [] ∧
      dbPop (.vDict es) cls (.boolW false) = .ok []) ∧
    (∀ (es : List (String × Val)) (cls : String),
      dictLookup (pyLower cls) es = some (.vDict []) →
      dbGet (.vDict es) cls (.boolW false) = .ok [] ∧
      dbPop (.vDict es) cls (.boolW false) = .ok []) ∧
    (∀ (es : List (String × Val)) (cls : String) (tbl : List (String × Val)),
      dictLookup (pyLower cls) es = some (.vDict tbl) →
      dbGetRaw (.vDict es) cls (.boolW true) = .ok tbl) := by
  refine ⟨?_, ?_, ?_, ?_⟩
  · intro es cls k e rest h
    have hraw : dbGetRaw (.vDict es) cls (.boolW false) = .error (.attributeError "compare") := by
      simp [dbGetRaw, h, scanTable_false_cons]
    refine ⟨hraw, ?_, ?_⟩
    · simp only [dbGet, hraw]; rfl
    · simp only [dbPop, hraw]; rfl
  · intro es cls h
    constructor
    · simp only [dbGet, dbGetRaw, h]; rfl
    · simp only [dbPop, dbGetRaw, h]; rfl
  · intro es cls h
    constructor
    · simp only [dbGet, dbGetRaw, h]; rfl
    · simp only [dbPop, dbGetRaw, h]; rfl
  · intro es cls tbl h
    simp [dbGetRaw, h, scanTable_keepAll (.boolW true) rfl]

/-- C10 witness: the three branches at concrete inputs — a one-record
table raises on `where=False`, an absent and an empty table return the
empty sequence, and `where=True` keeps everything. -/
theorem c10_witness :
    dbGet (.vDict [("project", .vDict [("0", .vRec "Project" [] (-1))])]) "Project" (.boolW false)
      = .error (.attributeError "compare") ∧
    dbGet (.vDict [("last_commit", .vDt 3)]) "Project" (.boolW false) = .ok [] ∧
    dbGet (.vDict [("project", .vDict [])]) "Project" (.boolW false) = .ok [] ∧
    dbGetRaw (.vDict [("project", .vDict [("0", .vRec "Project" [] (-1))])]) "Project" (.boolW true)
      = .ok [("0", .vRec "Project" [] (-1))] := by
  refine ⟨?_, ?_, ?_, ?_⟩
  · exact (c10_where_false_raises_during_scan.1
      [("project", .vDict [("0", .vRec "Project" [] (-1))])] "Project" "0"
      (.vRec "Project" [] (-1)) [] rfl).2.1
  · exact (c10_where_false_raises_during_scan.2.1 [("last_commit", .vDt 3)] "Project" rfl).1
  · exact (c10_where_false_raises_during_scan.2.2.1
      [("project", .vDict [])] "Project" rfl).1
  · exact c10_where_false_raises_during_scan.2.2.2
      [("project", .vDict [("0", .vRec "Project" [] (-1))])] "Project"
      [("0", .vRec "Project" [] (-1))] rfl

/-! ## C6 -/

/-- C6 counterexample: the claim asserts that a valid pattern evaluated
against a non-string field silently falls back to exact value equality
without raising; in the code the `try` only guards `re.compile`, so the
regex branch is chosen for the valid pattern `"abc"` and
`pattern.search(5)` raises `TypeError` during evaluation instead of
returning the exact-equality result `False`. -/
theorem c6_counterexample :
    tableFieldEq "size" (.pat "abc") (.vRec "File" [("size", .vInt 5)] (-1))
      = .error (.typeError "expected string or bytes-like object") ∧
    tableFieldEq "size" (.pat "abc") (.vRec "File" [("size", .vInt 5)] (-1))
      ≠ .ok false := by
  constructor
  · rfl
  · intro h
    rw [show tableFieldEq "size" (.pat "abc") (.vRec "File" [("size", .vInt 5)] (-1))
        = .error (.typeError "expected string or bytes-like object") from rfl] at h
    cases h

/-- C6 amended: the equality predicate built from a field matches when the
literal compiles as a valid pattern and the field value is a string
containing a match (for example literal `"abc"` matches `"xabcx"`); when
the literal fails to compile — a malformed pattern or a non-string
literal — it falls back to exact value equality without raising; but a
valid pattern evaluated against a non-string field raises `TypeError`
during the scan rather than falling back. -/
theorem c6_amended_regex_or_exact :
    (∀ (p s name c : String) (i : Int),
      tableFieldEq name (.pat p) (.vRec c [(name, .vStr s)] i) = .ok (reSearch p s)) ∧
    reSearch "abc" "xabcx" = true ∧
    (∀ (p name c : String) (i n : Int),
      tableFieldEq name (.pat p) (.vRec c [(name, .vInt n)] i)
        = .error (.typeError "expected string or bytes-like object")) ∧
    (∀ (s name c : String) (i : Int) (v : Val),
      tableFieldEq name (.badPat s) (.vRec c [(name, v)] i) = .ok (pyEq v (.vStr s))) ∧
    (∀ (name c : String) (i : Int) (v w : Val),
      tableFieldEq name (.nonStr w) (.vRec c [(name, v)] i) = .ok (pyEq v w)) := by
  refine ⟨?_, rfl, ?_, ?_, ?_⟩
  · intro p s name c i
    simp only [tableFieldEq, getattrVal, dictLookup, if_pos rfl]
    rfl
  · intro p name c i n
    simp only [tableFieldEq, getattrVal, dictLookup, if_pos rfl]
    rfl
  · intro s name c i v
    simp only [tableFieldEq, getattrVal, dictLookup, if_pos rfl, litValue]
    rfl
  · intro name c i v w
    simp only [tableFieldEq, getattrVal, dictLookup, if_pos rfl, litValue]
    rfl

/-! ## C5 -/

/-- C5: the `@dataclass` decorator adds a generated `__eq__` to every
concrete record type (none of them defines one in its own body), and that
generated method shadows the hand-written `Table.__eq__`; Python `==` on
records therefore compares the declared field tuples only — the `_id`
attribute is not a dataclass field.  At the claim inputs: two `Project`
records with identical fields compare equal even though one is persisted
(`_id = 0`) and the other transient (`_id = -1`), contradicting the
claimed identity-based inequality; two persisted records with equal
identities but diverged fields compare unequal, contradicting the claimed
identity-based equality; records of different concrete types stay
unequal. -/
theorem c5_record_equality_is_structural_only :
    pyEq (.vRec "Project" [("name", .vStr "foo")] 0)
        (.vRec "Project" [("name", .vStr "foo")] (-1)) = true ∧
    pyEq (.vRec "Project" [("name", .vStr "foo")] 0)
        (.vRec "Project" [("name", .vStr "bar")] 0) = false ∧
    pyEq (.vRec "Project" [("name", .vStr "foo")] (-1))
        (.vRec "FileName" [("name", .vStr "foo")] (-1)) = false :=
  ⟨rfl, rfl, rfl⟩

/-! ## C8 -/

/-- C8: on a store whose table entries are decoded record instances — the
state every `rollback` of a committed file (and every `put`) produces —
`pop` reaches `table(**table_entry)` and raises `TypeError`, because a
record instance is not a mapping; it never returns the claimed detached
records with identity `-1`, while the same scan through `get` succeeds. -/
theorem c8_pop_raises_typeerror :
    dbPop (.vDict [("last_commit", .vDt 3),
        ("project", .vDict [("0", .vRec "Project" [("name", .vStr "foo")] (-1))])])
      "Project" .noneW = .error (.typeError "argument after ** must be a mapping") ∧
    dbGet (.vDict [("last_commit", .vDt 3),
        ("project", .vDict [("0", .vRec "Project" [("name", .vStr "foo")] (-1))])])
      "Project" .noneW = .ok [.vRec "Project" [("name", .vStr "foo")] 0] :=
  ⟨rfl, rfl⟩

/-! ## C7 -/

/-- C7: when more than one registered codec matches, `_encode` and
`_decode` fail with a `TypeError` at encode/decode time rather than
silently picking one of the matching codecs (the multi-match `TypeError`
is constructed without `raise`, so control falls through past the
length-one test to the final not-serializable raise); zero matches fails
with the not-serializable (resp. not-deserializable) `TypeError`. -/
theorem c7_codec_ambiguity_fails_fast :
    (∀ (encs : List EncoderM) (obj : Val),
      1 < (encs.filter (fun e => e.check obj)).length →
      dbEncodeWith encs obj
        = .error (.typeError ("Object of type " ++ clsNameOf obj ++ " is not JSON serializable"))) ∧
    (∀ (encs : List EncoderM) (obj : Val),
      (encs.filter (fun e => e.check obj)).length = 0 →
      dbEncodeWith encs obj
        = .error (.typeError ("Object of type " ++ clsNameOf obj ++ " is not JSON serializable"))) ∧
    (∀ (decs : List DecoderM) (node : List (String × Val)) (tv : Val),
      dictLookup "__type__" node = some tv →
      1 < (decs.filter (fun d => d.check node)).length →
      dbDecodeWith decs node = .error (.typeError "is not JSON deserializable")) ∧
    (∀ (decs : List DecoderM) (node : List (String × Val)) (tv : Val),
      dictLookup "__type__" node = some tv →
      (decs.filter (fun d => d.check node)).length = 0 →
      dbDecodeWith decs node = .error (.typeError "is not JSON deserializable")) := by
  refine ⟨?_, ?_, ?_, ?_⟩
  · intro encs obj h
    rcases hf : encs.filter (fun e => e.check obj) with _ | ⟨a, _ | ⟨b, t⟩⟩
    · rw [hf] at h; simp at h
    · rw [hf] at h; simp at h
    · simp [dbEncodeWith, hf]
  · intro encs obj h
    rcases hf : encs.filter (fun e => e.check obj) with _ | ⟨a, t⟩
    · simp [dbEncodeWith, hf]
    · rw [hf] at h; simp at h
  · intro decs node tv hd h
    rcases hf : decs.filter (fun d => d.check node) with _ | ⟨a, _ | ⟨b, t⟩⟩
    · rw [hf] at h; simp at h
    · rw [hf] at h; simp at h
    · simp [dbDecodeWith, hd, hf]
  · intro decs node tv hd h
    rcases hf : decs.filter (fun d => d.check node) with _ | ⟨a, t⟩
    · simp [dbDecodeWith, hd, hf]
    · rw [hf] at h; simp at h

/-- C7 witness: a registry with two encoders both matching an `int` fails
fast; the empty registry raises not-serializable; likewise for two
always-matching decoders on a discriminator node, and for no decoders. -/
theorem c7_codec_witness :
    dbEncodeWith
      [⟨"int", fun v => match v with | .vInt _ => true | _ => false, fun _ => .jNull⟩,
       ⟨"int2", fun v => match v with | .vInt _ => true | _ => false, fun _ => .jNull⟩]
      (.vInt 3)
      = .error (.typeError "Object of type int is not JSON serializable") ∧
    dbEncodeWith [] (.vInt 3)
      = .error (.typeError "Object of type int is not JSON serializable") ∧
    dbDecodeWith
      [⟨"X", fun _ => true, fun _ => .ok .vNone⟩, ⟨"Y", fun _ => true, fun _ => .ok .vNone⟩]
      [("__type__", .vStr "X")] = .error (.typeError "is not JSON deserializable") ∧
    dbDecodeWith ([] : List DecoderM) [("__type__", .vStr "X")]
      = .error (.typeError "is not JSON deserializable") := by
  refine ⟨?_, ?_, ?_, ?_⟩
  · exact (c7_codec_ambiguity_fails_fast.1 _ (.vInt 3) (by decide)).trans rfl
  · exact (c7_codec_ambiguity_fails_fast.2.1 _ (.vInt 3) (by decide)).trans rfl
  · exact c7_codec_ambiguity_fails_fast.2.2.1 _ _ (.vStr "X") rfl (by decide)
  · exact c7_codec_ambiguity_fails_fast.2.2.2 _ _ (.vStr "X") rfl (by decide)

/-! ## C4 -/

theorem allocLoop_exits (tbl : List (String × Val)) :
    ∀ (fuel start : Nat), (∃ j, j < fuel ∧ dictMem (natKey (start + j)) tbl = false) →
      dictMem (natKey (allocLoop tbl start fuel)) tbl = false ∧
      start ≤ allocLoop tbl start fuel ∧
      ∀ m, start ≤ m → m < allocLoop tbl start fuel → dictMem (natKey m) tbl = true := by
  intro fuel
  induction fuel with
  | zero =>
    intro start h
    obtain ⟨j, hj, _⟩ := h
    omega
  | succ fuel ih =>
    intro start h
    by_cases hmem : dictMem (natKey start) tbl = true
    · have hex : ∃ j, j < fuel ∧ dictMem (natKey (start + 1 + j)) tbl = false := by
        obtain ⟨j, hj, hfree⟩ := h
        cases j with
        | zero =>
          exfalso
          rw [Nat.add_zero, hmem] at hfree
          cases hfree
        | succ j =>
          refine ⟨j, by omega, ?_⟩
          have harith : start + 1 + j = start + (j + 1) := by omega
          rw [harith]
          exact hfree
      obtain ⟨h1, h2, h3⟩ := ih (start + 1) hex
      have heq : allocLoop tbl start (fuel + 1) = allocLoop tbl (start + 1) fuel := by
        simp [allocLoop, hmem]
      refine ⟨by rw [heq]; exact h1, by rw [heq]; omega, ?_⟩
      intro m hm hm2
      rw [heq] at hm2
      by_cases hms : m = start
      · rw [hms]; exact hmem
      · exact h3 m (by omega) hm2
    · have hfalse : dictMem (natKey start) tbl = false := by
        cases hd : dictMem (natKey start) tbl
        · rfl
        · exact absurd hd hmem
      have heq : allocLoop tbl start (fuel + 1) = start := by
        simp [allocLoop, hfalse]
      refine ⟨by rw [heq]; exact hfalse, by rw [heq], ?_⟩
      intro m hm hm2
      rw [heq] at hm2
      omega

theorem exists_free_key (tbl : List (String × Val)) :
    ∃ j, j < tbl.length + 1 ∧ dictMem (natKey j) tbl = false := by
  by_contra hcon
  push_neg at hcon
  have hall : ∀ j ∈ List.range (tbl.length + 1), natKey j ∈ tbl.map Prod.fst := by
    intro j hj
    rw [List.mem_range] at hj
    have hne := hcon j hj
    have hb : dictMem (natKey j) tbl = true := by
      cases hd : dictMem (natKey j) tbl
      · exact absurd hd hne
      · rfl
    exact (dictMem_iff_mem_keys _ _).mp hb
  have hsub : ((List.range (tbl.length + 1)).map natKey) ⊆ tbl.map Prod.fst := by
    intro x hx
    rw [List.mem_map] at hx
    obtain ⟨j, hj, rfl⟩ := hx
    exact hall j hj
  have hnodup : ((List.range (tbl.length + 1)).map natKey).Nodup :=
    (List.nodup_range _).map natKey_injective
  have h1 : ((List.range (tbl.length + 1)).map natKey).toFinset.card = tbl.length + 1 := by
    rw [List.toFinset_card_of_nodup hnodup, List.length_map, List.length_range]
  have h2 : ((List.range (tbl.length + 1)).map natKey).toFinset ⊆ (tbl.map Prod.fst).toFinset := by
    intro x hx
    rw [List.mem_toFinset] at hx ⊢
    exact hsub hx
  have h3 := Finset.card_le_card h2
  have h4 := List.toFinset_card_le (tbl.map Prod.fst)
  rw [List.length_map] at h4
  omega

theorem allocId_first_fit (tbl : List (String × Val)) :
    dictMem (natKey (allocId tbl)) tbl = false ∧
    ∀ m, m < allocId tbl → dictMem (natKey m) tbl = true := by
  obtain ⟨j, hj, hfree⟩ := exists_free_key tbl
  have h := allocLoop_exits tbl (tbl.length + 1) 0 ⟨j, hj, by simpa using hfree⟩
  exact ⟨h.1, fun m hm => h.2.2 m (Nat.zero_le m) hm⟩

/-- C4: for every table state and transient record passed to `put`, the
assigned identity is the smallest non-negative integer whose decimal
string is not already a key of that table (first-fit reuse), and the
record is then stored under the string of its new identity, replacing any
prior entry at that key (`dictSet`). -/
theorem c4_put_first_fit :
    ∀ (es : List (String × Val)) (cls c : String) (fs tbl : List (String × Val)),
      dictLookup (pyLower cls) es = some (.vDict tbl) →
      dbPut (.vDict es) cls [.vRec c fs (-1)]
        = .ok (.vDict (dictSet (pyLower cls)
            (.vDict (dictSet (natKey (allocId tbl))
              (.vRec c fs (Int.ofNat (allocId tbl))) tbl)) es)) ∧
      dictMem (natKey (allocId tbl)) tbl = false ∧
      (∀ m, m < allocId tbl → dictMem (natKey m) tbl = true) := by
  intro es cls c fs tbl h
  have hmem : dictMem (pyLower cls) es = true := dictMem_true_of_lookup _ _ _ h
  refine ⟨?_, (allocId_first_fit tbl).1, (allocId_first_fit tbl).2⟩
  simp only [dbPut, hmem, if_true, h, putLoop, putEntry]
  norm_num
  rfl

/-- C4 witness: with existing keys 0, 1 and 3 the next transient record
receives identity 2, not 4, and is stored under the key "2". -/
theorem c4_first_fit_witness :
    allocId [("0", Val.vRec "Project" [] 0), ("1", Val.vRec "Project" [] 1),
      ("3", Val.vRec "Project" [] 3)] = 2 ∧
    dbPut (.vDict [("project", .vDict [("0", Val.vRec "Project" [] 0),
        ("1", Val.vRec "Project" [] 1), ("3", Val.vRec "Project" [] 3)])])
      "Project" [.vRec "Project" [("name", .vStr "p")] (-1)]
      = .ok (.vDict [("project", .vDict [("0", Val.vRec "Project" [] 0),
          ("1", Val.vRec "Project" [] 1), ("3", Val.vRec "Project" [] 3),
          ("2", .vRec "Project" [("name", .vStr "p")] 2)])]) := by
  constructor
  · rfl
  · exact (c4_put_first_fit
      [("project", .vDict [("0", Val.vRec "Project" [] 0),
        ("1", Val.vRec "Project" [] 1), ("3", Val.vRec "Project" [] 3)])]
      "Project" "Project" [("name", .vStr "p")]
      [("0", Val.vRec "Project" [] 0), ("1", Val.vRec "Project" [] 1),
        ("3", Val.vRec "Project" [] 3)] rfl).1.trans rfl

/-! ## C9 -/

/-- C9: when the backing file is absent or fails to parse as JSON,
`rollback` initializes a fresh one-entry Dataset stamped with the current
time and propagates no error, and a subsequent `get` of any record type
returns the empty sequence; but `last_commit()` then applies
`datetime.fromisoformat` to the stored value — which is already a
`datetime` object, both after a fresh initialization and after decoding a
committed file — and raises `TypeError` instead of returning the claimed
fresh timestamp. -/
theorem c9_rollback_fresh_but_lastcommit_raises :
    (∀ t : Nat, rollbackFn .absent t = .ok (.vDict [("last_commit", .vDt t)])) ∧
    (∀ t : Nat, rollbackFn .garbage t = .ok (.vDict [("last_commit", .vDt t)])) ∧
    (∀ (t : Nat) (cls : String), pyLower cls ≠ "last_commit" →
      dbGet (.vDict [("last_commit", .vDt t)]) cls .noneW = .ok []) ∧
    (∀ t : Nat, lastCommitFn ⟨none, .absent⟩ t
      = .error (.typeError "fromisoformat: argument must be str")) ∧
    (∀ t : Nat, lastCommitFn ⟨none, .garbage⟩ t
      = .error (.typeError "fromisoformat: argument must be str")) := by
  refine ⟨fun t => rfl, fun t => rfl, ?_, fun t => rfl, fun t => rfl⟩
  intro t cls h
  have hl : dictLookup (pyLower cls) [("last_commit", Val.vDt t)] = none := by
    simp [dictLookup, Ne.symm h]
  simp only [dbGet, dbGetRaw, hl]
  rfl

/-- C9 witness: the general parts applied at the record type `Project`
and time 7. -/
theorem c9_witness :
    rollbackFn .absent 7 = .ok (.vDict [("last_commit", .vDt 7)]) ∧
    dbGet (.vDict [("last_commit", .vDt 7)]) "Project" .noneW = .ok [] ∧
    lastCommitFn ⟨none, .absent⟩ 7 = .error (.typeError "fromisoformat: argument must be str") :=
  ⟨c9_rollback_fresh_but_lastcommit_raises.1 7,
   c9_rollback_fresh_but_lastcommit_raises.2.2.1 7 "Project" (by decide),
   c9_rollback_fresh_but_lastcommit_raises.2.2.2.1 7⟩

/-! ## C2 -/

/-- C2: a commit attempt that fails while encoding — here a record field
holding a value with no registered codec, such as a Python `set` — does
restore the in-memory timestamp to its prior value and leaves the backing
file untouched, but then raises `AttributeError` out of the reporting line
`print(f"I/O error({e.errno}): {e.strerror}")`, because the caught
`TypeError` has no `errno` attribute; it does not return the claimed
failure indicator.  An I/O failure on an encodable dataset behaves as
claimed: `False` is returned, the timestamp is restored, the file content
is untouched. -/
theorem c2_commit_encode_error_raises :
    commitFn ⟨some (.vDict [("last_commit", .vDt 3),
        ("project", .vDict [("0", .vRec "Project" [("data", .vNoCodec "set")] 0)])]),
      .doc [("last_commit", .jStr "old")]⟩ 1 5 7 .ioOk
      = (.raised (.attributeError "errno"),
         ⟨some (.vDict [("last_commit", .vDt 3),
            ("project", .vDict [("0", .vRec "Project" [("data", .vNoCodec "set")] 0)])]),
          .doc [("last_commit", .jStr "old")]⟩) ∧
    commitFn ⟨some (.vDict [("last_commit", .vDt 3),
        ("project", .vDict [("0", .vRec "Project" [("name", .vStr "foo")] 0)])]),
      .doc [("last_commit", .jStr "old")]⟩ 1 5 7 (.ioFail (some 2) "No such file or directory")
      = (.returned false,
         ⟨some (.vDict [("last_commit", .vDt 3),
            ("project", .vDict [("0", .vRec "Project" [("name", .vStr "foo")] 0)])]),
          .doc [("last_commit", .jStr "old")]⟩) :=
  ⟨rfl, rfl⟩

/-! ## C3 -/

theorem decodeJson_obj (es : List (String × Json)) (ds : List (String × Val))
    (h : decodeEntries es = .ok ds) : decodeJson (.jObj es) = decodeHook ds := by
  simp only [decodeJson, h]
  rfl

theorem decodeEntries_cons_ok (k : String) (j : Json) (rest : List (String × Json))
    (v : Val) (vs : List (String × Val))
    (h1 : decodeJson j = .ok v) (h2 : decodeEntries rest = .ok vs) :
    decodeEntries ((k, j) :: rest) = .ok ((k, v) :: vs) := by
  simp only [decodeEntries, h1, h2]
  rfl

theorem encodeEntries_cons_ok (k : String) (v : Val) (rest : List (String × Val))
    (j : Json) (js : List (String × Json))
    (h1 : encodeVal v = .ok j) (h2 : encodeEntries rest = .ok js) :
    encodeEntries ((k, v) :: rest) = .ok ((k, j) :: js) := by
  simp only [encodeEntries, h1, h2]
  rfl

theorem decodeHook_passthrough (ds : List (String × Val))
    (h : dictLookup "__type__" ds = none) : decodeHook ds = .ok (.vDict ds) := by
  simp only [decodeHook, h]

theorem decodeHook_datetime (t : Nat) :
    decodeHook [("__type__", .vStr "datetime"), ("value", .vStr (natKey t))]
      = .ok (.vDt t) := by
  have h : fromisoformatVal (.vStr (natKey t)) = .ok t := by
    simp [fromisoformatVal, parseNatKey_natKey]
  calc decodeHook [("__type__", .vStr "datetime"), ("value", .vStr (natKey t))]
      = (fromisoformatVal (.vStr (natKey t))).bind (fun x => .ok (.vDt x)) := rfl
    _ = .ok (.vDt t) := by rw [h]; rfl

theorem decodeHook_record (c : String) (f : List (String × Val))
    (hc : knownTypes.contains c = true) (hdt : c ≠ "datetime") :
    decodeHook [("__type__", .vStr c), ("value", .vDict f)] = .ok (.vRec c f (-1)) := by
  have hmem : c ∈ knownTypes := by simpa using hc
  simp [decodeHook, dictLookup, hdt, hmem]

theorem stripDoc_cons (k : String) (v : Val) (rest : List (String × Val)) :
    stripDoc ((k, v) :: rest)
      = (k, if k = "last_commit" then v else stripTableV v) :: stripDoc rest := rfl

theorem roundtrip_scalar (v : Val) (h : isScalarVal v = true) :
    ∃ j, encodeVal v = .ok j ∧ decodeJson j = .ok v := by
  cases v with
  | vNone => exact ⟨.jNull, rfl, rfl⟩
  | vBool b => exact ⟨.jBool b, rfl, rfl⟩
  | vInt n => exact ⟨.jInt n, rfl, rfl⟩
  | vStr s => exact ⟨.jStr s, rfl, rfl⟩
  | vDt t =>
    refine ⟨.jObj [("__type__", .jStr "datetime"), ("value", .jStr (natKey t))], rfl, ?_⟩
    rw [decodeJson_obj [("__type__", .jStr "datetime"), ("value", .jStr (natKey t))]
      [("__type__", .vStr "datetime"), ("value", .vStr (natKey t))] rfl, decodeHook_datetime]
  | vDict es => simp [isScalarVal] at h
  | vRec c f i => simp [isScalarVal] at h
  | vNoCodec tag => simp [isScalarVal] at h

theorem roundtrip_fields (fs : List (String × Val)) (h : wfFields fs = true) :
    ∃ js, encodeEntries fs = .ok js ∧ decodeEntries js = .ok fs ∧
      dictLookup "__type__" fs = none := by
  induction fs with
  | nil => exact ⟨[], rfl, rfl, rfl⟩
  | cons p rest ih =>
    obtain ⟨k, v⟩ := p
    rw [wfFields, List.all_cons, Bool.and_eq_true, Bool.and_eq_true] at h
    obtain ⟨⟨hk, hv⟩, hrest⟩ := h
    obtain ⟨js, he, hd, hn⟩ := ih hrest
    obtain ⟨j, hej, hdj⟩ := roundtrip_scalar v hv
    have hkne : k ≠ "__type__" := by simpa using hk
    exact ⟨(k, j) :: js, encodeEntries_cons_ok k v rest j js hej he,
      decodeEntries_cons_ok k j js v rest hdj hd, by simp [dictLookup, hkne, hn]⟩

theorem roundtrip_record (c : String) (f : List (String × Val)) (i : Int)
    (h : wfEntryV (.vRec c f i) = true) :
    ∃ j, encodeVal (.vRec c f i) = .ok j ∧ decodeJson j = .ok (.vRec c f (-1)) := by
  rw [wfEntryV, Bool.and_eq_true, Bool.and_eq_true] at h
  obtain ⟨⟨hc, hdt⟩, hf⟩ := h
  obtain ⟨js, he, hd, hn⟩ := roundtrip_fields f hf
  have hdtne : c ≠ "datetime" := by simpa using hdt
  have hv : decodeJson (.jObj js) = .ok (.vDict f) := by
    rw [decodeJson_obj js f hd, decodeHook_passthrough f hn]
  refine ⟨.jObj [("__type__", .jStr c), ("value", .jObj js)], ?_, ?_⟩
  · simp only [encodeVal, he]
    rfl
  · have h1 : decodeEntries [("__type__", .jStr c), ("value", .jObj js)]
        = .ok [("__type__", .vStr c), ("value", .vDict f)] :=
      decodeEntries_cons_ok _ _ _ _ _ rfl (decodeEntries_cons_ok _ _ _ _ _ hv rfl)
    rw [decodeJson_obj _ _ h1, decodeHook_record c f hc hdtne]

theorem roundtrip_table_entries (tbl : List (String × Val))
    (h : tbl.all (fun p => (p.1 != "__type__") && wfEntryV p.2) = true) :
    ∃ js, encodeEntries tbl = .ok js ∧
      decodeEntries js = .ok (tbl.map (fun p => (p.1, stripId p.2))) ∧
      dictLookup "__type__" (tbl.map (fun p => (p.1, stripId p.2))) = none := by
  induction tbl with
  | nil => exact ⟨[], rfl, rfl, rfl⟩
  | cons p rest ih =>
    obtain ⟨k, v⟩ := p
    rw [List.all_cons, Bool.and_eq_true, Bool.and_eq_true] at h
    obtain ⟨⟨hk, hv⟩, hrest⟩ := h
    obtain ⟨js, he, hd, hn⟩ := ih hrest
    have hkne : k ≠ "__type__" := by simpa using hk
    obtain ⟨c, f, i, rfl⟩ : ∃ c f i, v = Val.vRec c f i := by
      cases v <;> simp [wfEntryV] at hv ⊢
    obtain ⟨j, hej, hdj⟩ := roundtrip_record c f i hv
    refine ⟨(k, j) :: js, encodeEntries_cons_ok k _ rest j js hej he, ?_, ?_⟩
    · simpa [stripId] using
        decodeEntries_cons_ok k j js (.vRec c f (-1)) (rest.map (fun p => (p.1, stripId p.2))) hdj hd
    · rw [List.map_cons, dictLookup_cons, if_neg hkne]
      exact hn

theorem roundtrip_tableV (tv : Val) (h : wfTableV tv = true) :
    ∃ j, encodeVal tv = .ok j ∧ decodeJson j = .ok (stripTableV tv) := by
  obtain ⟨tbl, rfl⟩ : ∃ tbl, tv = Val.vDict tbl := by
    cases tv <;> simp [wfTableV] at h ⊢
  rw [wfTableV] at h
  obtain ⟨js, he, hd, hn⟩ := roundtrip_table_entries tbl h
  refine ⟨.jObj js, ?_, ?_⟩
  · simp only [encodeVal, he]
    rfl
  · rw [decodeJson_obj js _ hd, decodeHook_passthrough _ hn]
    rfl

theorem roundtrip_doc_entries (es : List (String × Val)) (h : wfDoc es = true) :
    ∃ js, encodeEntries es = .ok js ∧ decodeEntries js = .ok (stripDoc es) ∧
      dictLookup "__type__" (stripDoc es) = none := by
  induction es with
  | nil => exact ⟨[], rfl, rfl, rfl⟩
  | cons p rest ih =>
    obtain ⟨k, v⟩ := p
    rw [wfDoc, List.all_cons, Bool.and_eq_true, Bool.and_eq_true] at h
    obtain ⟨⟨hk, hv⟩, hrest⟩ := h
    obtain ⟨js, he, hd, hn⟩ := ih hrest
    have hkne : k ≠ "__type__" := by simpa using hk
    by_cases hlc : k = "last_commit"
    · subst hlc
      rw [if_pos rfl] at hv
      obtain ⟨t, rfl⟩ : ∃ t, v = Val.vDt t := by
        cases v <;> simp at hv ⊢
      obtain ⟨j, hej, hdj⟩ := roundtrip_scalar (.vDt t) rfl
      refine ⟨("last_commit", j) :: js,
        encodeEntries_cons_ok _ _ rest j js hej he, ?_, ?_⟩
      · rw [stripDoc_cons, if_pos rfl]
        exact decodeEntries_cons_ok _ j js (.vDt t) (stripDoc rest) hdj hd
      · rw [stripDoc_cons, if_pos rfl]
        simp [dictLookup, hn]
    · rw [if_neg hlc] at hv
      obtain ⟨j, hej, hdj⟩ := roundtrip_tableV v hv
      refine ⟨(k, j) :: js, encodeEntries_cons_ok k v rest j js hej he, ?_, ?_⟩
      · rw [stripDoc_cons, if_neg hlc]
        exact decodeEntries_cons_ok k j js (stripTableV v) (stripDoc rest) hdj hd
      · rw [stripDoc_cons, if_neg hlc]
        simp [dictLookup, hkne, hn]

theorem wfDoc_dictSet_lastCommit (es : List (String × Val)) (t : Nat)
    (h : wfDoc es = true) : wfDoc (dictSet "last_commit" (.vDt t) es) = true := by
  induction es with
  | nil => rfl
  | cons p rest ih =>
    obtain ⟨k, v⟩ := p
    rw [wfDoc, List.all_cons, Bool.and_eq_true] at h
    obtain ⟨hh, hrest⟩ := h
    by_cases hlc : k = "last_commit"
    · subst hlc
      rw [dictSet_cons, if_pos rfl, wfDoc, List.all_cons, Bool.and_eq_true]
      exact ⟨by simp, hrest⟩
    · rw [dictSet_cons, if_neg hlc, wfDoc, List.all_cons, Bool.and_eq_true]
      exact ⟨hh, ih hrest⟩

theorem stripDoc_lookup_lastCommit (es : List (String × Val)) :
    dictLookup "last_commit" (stripDoc es) = dictLookup "last_commit" es := by
  induction es with
  | nil => rfl
  | cons p rest ih =>
    obtain ⟨k, v⟩ := p
    rw [stripDoc_cons, dictLookup_cons, dictLookup_cons]
    by_cases hlc : k = "last_commit"
    · rw [if_pos hlc, if_pos hlc, if_pos hlc]
    · rw [if_neg hlc, if_neg hlc, ih]

/-- C3 amended: on every well-formed document, a successful `commit`
followed by a fresh `rollback` reproduces the same table names, the same
storage keys and the same field values, and the `last_commit` timestamp
equals the commit stamp (which under a monotone clock is at least the
timestamp held before the commit) — but every record instance comes back
with its in-memory identity reset to `-1` (`asdict` drops the non-field
`_id` and `__post_init__` recreates it), so identities survive only as
the storage keys, not on the records. -/
theorem c3_commit_rollback_roundtrip :
    ∀ (es : List (String × Val)) (t0 : Nat) (f0 : FileState) (tL tS tR tL2 : Nat),
      wfDoc es = true →
      dictLookup "last_commit" es = some (.vDt t0) →
      t0 ≤ tS →
      ∃ js,
        commitFn ⟨some (.vDict es), f0⟩ tL tS tR .ioOk
          = (.returned true, ⟨some (.vDict (dictSet "last_commit" (.vDt tS) es)), .doc js⟩) ∧
        rollbackFn (.doc js) tL2
          = .ok (.vDict (stripDoc (dictSet "last_commit" (.vDt tS) es))) ∧
        dictLookup "last_commit" (stripDoc (dictSet "last_commit" (.vDt tS) es))
          = some (.vDt tS) ∧
        t0 ≤ tS := by
  intro es t0 f0 tL tS tR tL2 hwf hlc hle
  have hwf1 : wfDoc (dictSet "last_commit" (.vDt tS) es) = true :=
    wfDoc_dictSet_lastCommit es tS hwf
  obtain ⟨js, he, hd, hn⟩ := roundtrip_doc_entries (dictSet "last_commit" (.vDt tS) es) hwf1
  refine ⟨js, ?_, ?_, ?_, hle⟩
  · simp [commitFn, loadIfNone, he]
  · show decodeJson (.jObj js) = _
    rw [decodeJson_obj js _ hd, decodeHook_passthrough _ hn]
  · rw [stripDoc_lookup_lastCommit, dictLookup_dictSet]

/-- C3 witness: the round trip applied to a one-record document committed
at time 5 (previous timestamp 3). -/
theorem c3_roundtrip_witness :
    wfDoc [("last_commit", Val.vDt 3),
      ("project", Val.vDict [("0", Val.vRec "Project" [("name", Val.vStr "foo")] 0)])] = true ∧
    (∃ js,
      commitFn ⟨some (.vDict [("last_commit", Val.vDt 3),
          ("project", Val.vDict [("0", Val.vRec "Project" [("name", Val.vStr "foo")] 0)])]),
        .absent⟩ 1 5 7 .ioOk
        = (.returned true, ⟨some (.vDict (dictSet "last_commit" (.vDt 5)
            [("last_commit", Val.vDt 3),
             ("project", Val.vDict [("0", Val.vRec "Project" [("name", Val.vStr "foo")] 0)])])),
           .doc js⟩) ∧
      rollbackFn (.doc js) 9
        = .ok (.vDict (stripDoc (dictSet "last_commit" (.vDt 5)
            [("last_commit", Val.vDt 3),
             ("project", Val.vDict [("0", Val.vRec "Project" [("name", Val.vStr "foo")] 0)])]))) ∧
      dictLookup "last_commit" (stripDoc (dictSet "last_commit" (.vDt 5)
          [("last_commit", Val.vDt 3),
           ("project", Val.vDict [("0", Val.vRec "Project" [("name", Val.vStr "foo")] 0)])]))
        = some (.vDt 5) ∧
      3 ≤ 5) :=
  ⟨rfl, c3_commit_rollback_roundtrip
    [("last_commit", Val.vDt 3),
     ("project", Val.vDict [("0", Val.vRec "Project" [("name", Val.vStr "foo")] 0)])]
    3 .absent 1 5 7 9 rfl rfl (by norm_num)⟩

/-- C3 counterexample: the claim asserts the round trip reproduces the
records with the same identities attached; at this input the record
stored under key "0" goes into the commit with `_id = 0` and comes back
from the rollback with `_id = -1`, so the reproduced Dataset is not
identical-except-timestamp. -/
theorem c3_counterexample :
    commitFn ⟨some (.vDict [("last_commit", .vDt 3),
        ("project", .vDict [("0", .vRec "Project" [("name", .vStr "foo")] 0)])]), .absent⟩
      1 5 7 .ioOk
      = (.returned true, ⟨some (.vDict [("last_commit", .vDt 5),
          ("project", .vDict [("0", .vRec "Project" [("name", .vStr "foo")] 0)])]),
         .doc [("last_commit", .jObj [("__type__", .jStr "datetime"), ("value", .jStr "5")]),
           ("project", .jObj [("0", .jObj [("__type__", .jStr "Project"),
             ("value", .jObj [("name", .jStr "foo")])])])]⟩) ∧
    rollbackFn (.doc [("last_commit", .jObj [("__type__", .jStr "datetime"), ("value", .jStr "5")]),
        ("project", .jObj [("0", .jObj [("__type__", .jStr "Project"),
          ("value", .jObj [("name", .jStr "foo")])])])]) 9
      = .ok (.vDict [("last_commit", .vDt 5),
          ("project", .vDict [("0", .vRec "Project" [("name", .vStr "foo")] (-1))])]) ∧
    (Val.vRec "Project" [("name", .vStr "foo")] (-1)) ≠ (.vRec "Project" [("name", .vStr "foo")] 0) := by
  refine ⟨rfl, rfl, ?_⟩
  simp

/-! ## C1 -/

theorem bindExcept_ok {α β : Type} (a : α) (f : α → Except PyErr β) :
    (Except.ok a : Except PyErr α) >>= f = f a := rfl

theorem bindExcept_error {α β : Type} (e : PyErr) (f : α → Except PyErr β) :
    (Except.error e : Except PyErr α) >>= f = .error e := rfl

theorem heapGetLoop_addrs (tbl : List (String × Nat)) :
    ∀ (cells cells' : List Val) (addrs : List Nat),
      heapGetLoop cells tbl = .ok (cells', addrs) → addrs = tbl.map Prod.snd := by
  induction tbl with
  | nil =>
    intro cells cells' addrs h
    simp only [heapGetLoop, Except.ok.injEq, Prod.mk.injEq] at h
    rw [← h.2]
    rfl
  | cons p rest ih =>
    obtain ⟨k, a⟩ := p
    intro cells cells' addrs h
    rw [heapGetLoop] at h
    split at h
    · exact Except.noConfusion h
    · rename_i n hn
      cases hs : stampCell cells a (Int.ofNat n) with
      | error e =>
        rw [hs, bindExcept_error] at h
        exact Except.noConfusion h
      | ok cells1 =>
        rw [hs, bindExcept_ok] at h
        cases hg : heapGetLoop cells1 rest with
        | error e =>
          rw [hg, bindExcept_error] at h
          exact Except.noConfusion h
        | ok pr =>
          obtain ⟨c2, ad⟩ := pr
          rw [hg, bindExcept_ok] at h
          simp only [Except.ok.injEq, Prod.mk.injEq] at h
          rw [← h.2, ih cells1 c2 ad hg]
          rfl

/-- C1 amended: `Database.get` returns the store's own record objects, not
detached copies — on every store, the sequence of references it returns is
exactly the sequence of references held in the scanned table (after their
`_id` is stamped in place), and the table itself is unchanged; hence a
field mutation through a returned reference mutates the record the store
holds, and a later `get` or `commit` observes the mutated value. -/
theorem c1_get_returns_aliases :
    ∀ (s : HeapStore) (cls : String) (tbl : List (String × Nat)) (s' : HeapStore)
      (addrs : List Nat),
      dictLookup (pyLower cls) s.tables = some tbl →
      heapGet s cls = .ok (s', addrs) →
      addrs = tbl.map Prod.snd ∧ s'.tables = s.tables := by
  intro s cls tbl s' addrs h hg
  simp only [heapGet, h] at hg
  cases hl : heapGetLoop s.cells tbl with
  | error e =>
    rw [hl, bindExcept_error] at hg
    exact Except.noConfusion hg
  | ok pr =>
    obtain ⟨cells', ad⟩ := pr
    rw [hl, bindExcept_ok] at hg
    simp only [Except.ok.injEq, Prod.mk.injEq] at hg
    obtain ⟨hs', haddrs⟩ := hg
    constructor
    · rw [← haddrs]
      exact heapGetLoop_addrs tbl s.cells cells' ad hl
    · rw [← hs']

/-- C1 counterexample: one stored `Project` at heap address 0; `get`
returns a reference to that very object (stamping its `_id` to 0), a
caller-side field assignment through the returned reference changes the
record held by the store, and a later `get` observes the renamed record —
the claim that the store and later reads are unaffected fails. -/
theorem c1_counterexample :
    heapGet ⟨[.vRec "Project" [("name", .vStr "foo")] (-1)], [("project", [("0", 0)])]⟩ "Project"
      = .ok (⟨[.vRec "Project" [("name", .vStr "foo")] 0], [("project", [("0", 0)])]⟩, [0]) ∧
    heapMutate ⟨[.vRec "Project" [("name", .vStr "foo")] 0], [("project", [("0", 0)])]⟩
        0 "name" (.vStr "RENAMED")
      = ⟨[.vRec "Project" [("name", .vStr "RENAMED")] 0], [("project", [("0", 0)])]⟩ ∧
    heapGet ⟨[.vRec "Project" [("name", .vStr "RENAMED")] 0], [("project", [("0", 0)])]⟩ "Project"
      = .ok (⟨[.vRec "Project" [("name", .vStr "RENAMED")] 0], [("project", [("0", 0)])]⟩, [0]) ∧
    (Val.vRec "Project" [("name", .vStr "RENAMED")] 0) ≠ (.vRec "Project" [("name", .vStr "foo")] 0) := by
  refine ⟨rfl, rfl, rfl, ?_⟩
  simp

/-- C1 witness: the aliasing theorem applied to the concrete one-record
store. -/
theorem c1_aliases_witness :
    [(0 : Nat)] = ([("0", (0 : Nat))].map Prod.snd) ∧
    ([("project", [("0", (0 : Nat))])] : List (String × List (String × Nat)))
      = [("project", [("0", 0)])] :=
  c1_get_returns_aliases
    ⟨[.vRec "Project" [("name", .vStr "foo")] (-1)], [("project", [("0", 0)])]⟩
    "Project" [("0", 0)]
    ⟨[.vRec "Project" [("name", .vStr "foo")] 0], [("project", [("0", 0)])]⟩
    [0] rfl rfl

end Warehub
